import Mathlib

/-!
Verification of the steam-shortcut-manager repository against its
natural-language specification.

Each section embeds one part of the Go source as Lean definitions
(pure functions become Lean functions; stateful code becomes explicit
state passing; machine integers are Nat/Int with explicit `% 2 ^ 32`
where overflow matters; fallible code returns Option/Except) and the
theorems settle the frozen claims about it.
-/

/-! ## VDF pivot encoding (src/pkg/shortcut/shortcut.go)

The Save path marshals the Shortcuts struct to JSON and back into a
`map[string]interface{}` (the pivot representation), then `ensureVDFMap`
coerces that generic map into a `vdf.Map` whose values are only
uint32, string, or nested maps.  We embed the pivot values as `GoValue`
(Go interface{} values that can appear in the pivot map: nil, int,
int64, float64, string, nested map, slice, bool) and the result values
as `VdfValue`.  Go map iteration order is unspecified, so the pivot map
is embedded as an association list in one arbitrary iteration order;
the claims settled here are order-independent.  A Go float64 is carried
as its exact rational value: `ensureVDFMap` performs no float
arithmetic, only the conversion to uint32, which is exact on the whole
values the claims quantify over. -/

/-- Values of the generic pivot representation (Go `interface{}`). -/
inductive GoValue where
  | vnull : GoValue
  | vint : Int → GoValue
  | vint64 : Int → GoValue
  | vfloat64 : ℚ → GoValue
  | vstring : String → GoValue
  | vmap : List (String × GoValue) → GoValue
  | vlist : List GoValue → GoValue
  | vbool : Bool → GoValue

/-- Values representable in a `vdf.Map`: uint32, string, nested map. -/
inductive VdfValue where
  | vuint32 : Nat → VdfValue
  | vstring : String → VdfValue
  | vmap : List (String × VdfValue) → VdfValue

/-- Go conversion `uint32(v)` for `v` of type int or int64: the low 32
bits of the two's-complement representation, i.e. `v mod 2 ^ 32`. -/
def goIntToUint32 (v : Int) : Nat := (v % (2 ^ 32 : Int)).toNat

/-- Go conversion `uint32(f)` for a float64 `f`: the fractional part is
discarded.  Go leaves the conversion unspecified outside `[0, 2 ^ 32)`;
on nonnegative whole values below `2 ^ 32` — the domain the claims
quantify over — this model is exact. -/
def goFloat64ToUint32 (q : ℚ) : Nat := (⌊q⌋).toNat % 2 ^ 32

mutual
/-- One case of the type switch in `ensureVDFMap`
(src/pkg/shortcut/shortcut.go lines 73-91): `none` means the key is
skipped (nil values and types VDF does not support), `some w` means the
key is kept with coerced value `w`. -/
def ensureVDFValue : GoValue → Option VdfValue
  | .vnull => none
  | .vint v => some (.vuint32 (goIntToUint32 v))
  | .vint64 v => some (.vuint32 (goIntToUint32 v))
  | .vfloat64 q => some (.vuint32 (goFloat64ToUint32 q))
  | .vstring s => some (.vstring s)
  | .vmap m => some (.vmap (ensureVDFMap m))
  | .vlist _ => none
  | .vbool _ => none

/-- The loop of `ensureVDFMap` (src/pkg/shortcut/shortcut.go lines
71-93) over the entries of the pivot map in iteration order. -/
def ensureVDFMap : List (String × GoValue) → List (String × VdfValue)
  | [] => []
  | (k, v) :: rest =>
    match ensureVDFValue v with
    | some w => (k, w) :: ensureVDFMap rest
    | none => ensureVDFMap rest
end

/-- The pivot values the claims describe as dropped by the encode step:
explicit null, and every type outside int-like, float64, string, and
nested string-keyed mapping (slices and booleans). -/
def isDroppedType : GoValue → Bool
  | .vnull => true
  | .vlist _ => true
  | .vbool _ => true
  | _ => false

/-! ## Remote execution client (src/pkg/remote/remote.go)

The `Client` struct holds an SSH transport handle (`sshClient`) and an
SFTP file-transfer handle (`sftpClient`).  The embedding tracks, for
each handle, whether the struct field is set (non-nil) and, for the
transport, whether the underlying network connection is still open —
`Connect` closes the transport on SFTP failure without clearing the
field, and the distinction is exactly what the claims about
partial-connected state ask about.  External effects (file reads for
keys, the dial, the SFTP handshake, remote stats) are passed in as
explicit environment parameters. -/

/-- Errors of the remote client, mirroring the error messages built
with `fmt.Errorf` in src/pkg/remote/remote.go. -/
inductive RErr where
  | notConnected
  | authUnavailable
  | dialFailed
  | sftpFailed
  | sessionFailed
  | fileAccessError
  | statFailed
deriving DecidableEq, Repr

/-- Connection configuration (src/pkg/remote/remote.go lines 14-21).
An empty string models an unset optional field, as in Go. -/
structure RemoteConfig where
  host : String
  port : Nat
  user : String
  password : String
  keyFile : String
deriving DecidableEq, Repr

/-- The handle state of a `Client` (src/pkg/remote/remote.go lines
23-28).  `sshSet` is whether the `sshClient` field is non-nil,
`sshOpen` whether the underlying transport connection is open,
`sftpSet` whether the `sftpClient` field is non-nil. -/
structure RClient where
  sshSet : Bool
  sshOpen : Bool
  sftpSet : Bool
deriving DecidableEq, Repr

/-- A freshly constructed client: both handle fields are nil. -/
def newRClient : RClient := ⟨false, false, false⟩

/-- An SSH authentication method as built by `Connect`. -/
inductive AuthMethod where
  | publicKeys (keyPath : String)
  | passwordAuth (pw : String)
deriving DecidableEq, Repr

/-- Go `path.Join` restricted to components without cleaning, which
never arises for the joins this code performs. -/
def pathJoin (a b : String) : String := a ++ "/" ++ b

/-- The fixed default key file list tried by `Connect`
(src/pkg/remote/remote.go lines 56-60). -/
def defaultKeyPaths (homeDir : String) : List String :=
  [pathJoin (pathJoin homeDir ".ssh") "id_rsa",
   pathJoin (pathJoin homeDir ".ssh") "id_ed25519",
   pathJoin (pathJoin homeDir ".ssh") "id_ecdsa"]

/-- The auth-method list built by `Connect` (src/pkg/remote/remote.go
lines 40-78).  `keyOk p` models the success of reading file `p` and
parsing it as a private key (both failures are skipped silently).  The
explicit key file is used when configured and parseable; the default
key paths are scanned (first hit wins) only when the list is still
empty; a password method is appended whenever a password is set. -/
def buildAuthMethods (cfg : RemoteConfig) (keyOk : String → Bool)
    (homeDir : String) : List AuthMethod :=
  let explicitKey : List AuthMethod :=
    if cfg.keyFile ≠ "" ∧ keyOk cfg.keyFile then [.publicKeys cfg.keyFile] else []
  let defaults : List AuthMethod :=
    if explicitKey.isEmpty then
      match (defaultKeyPaths homeDir).find? keyOk with
      | some p => [.publicKeys p]
      | none => []
    else []
  let pw : List AuthMethod :=
    if cfg.password ≠ "" then [.passwordAuth cfg.password] else []
  explicitKey ++ defaults ++ pw

/-- Outcome of one `Connect` call: the client state afterwards, the
returned error (if any), and whether `ssh.Dial` was attempted. -/
structure ConnectResult where
  client : RClient
  error : Option RErr
  dialAttempted : Bool
deriving DecidableEq, Repr

/-- The `Connect` method (src/pkg/remote/remote.go lines 39-105).
`dialOk` and `sftpOk` are the outcomes of `ssh.Dial` and
`sftp.NewClient`.  Note the source order: `c.sshClient = sshClient` is
assigned before the SFTP step, and on SFTP failure the transport is
closed (`sshClient.Close()`) but the field is left assigned. -/
def connect (cfg : RemoteConfig) (keyOk : String → Bool) (homeDir : String)
    (dialOk sftpOk : Bool) (c : RClient) : ConnectResult :=
  let methods := buildAuthMethods cfg keyOk homeDir
  if methods.isEmpty then
    ⟨c, some .authUnavailable, false⟩
  else if !dialOk then
    ⟨c, some .dialFailed, true⟩
  else
    let c1 : RClient := { c with sshSet := true, sshOpen := true }
    if !sftpOk then
      ⟨{ c1 with sshOpen := false }, some .sftpFailed, true⟩
    else
      ⟨{ c1 with sftpSet := true }, none, true⟩

/-- Metadata returned by a stat, as much of `os.FileInfo` as the
repository consumes: the entry name and whether it is a directory. -/
structure RFileInfo where
  name : String
  isDir : Bool
deriving DecidableEq, Repr

/-- The `Stat` method (src/pkg/remote/remote.go lines 158-163).
`statRes p = some fi` models a successful `sftpClient.Stat(p)`;
`none` models any stat failure. -/
def rstat (c : RClient) (statRes : String → Option RFileInfo)
    (p : String) : Except RErr RFileInfo :=
  if !c.sftpSet then .error .notConnected
  else
    match statRes p with
    | some fi => .ok fi
    | none => .error .statFailed

/-- The `FileExists` method (src/pkg/remote/remote.go lines 174-177):
true exactly when `Stat` returned no error. -/
def fileExists (c : RClient) (statRes : String → Option RFileInfo)
    (p : String) : Bool :=
  match rstat c statRes p with
  | .ok _ => true
  | .error _ => false

/-- The `ReadFile` method (src/pkg/remote/remote.go lines 119-131).
`readRes p` is the outcome of opening and reading the remote file. -/
def readFile (c : RClient) (readRes : String → Option String)
    (p : String) : Except RErr String :=
  if !c.sftpSet then .error .notConnected
  else
    match readRes p with
    | some data => .ok data
    | none => .error .fileAccessError

/-- The `RunCommand` method (src/pkg/remote/remote.go lines 188-200):
gated on the `sshClient` field only; `sessionOk` and `output` are the
outcome of `NewSession` and `CombinedOutput` on the live transport. -/
def runCommand (c : RClient) (sessionOk : Bool) (output : String) :
    Except RErr String :=
  if !c.sshSet then .error .notConnected
  else if !sessionOk then .error .sessionFailed
  else .ok output

/-! ## Location resolution over the remote client (src/unnamed/part_001)

`GetRemoteUsers` resolves `<home>/.steam/steam/userdata`, lists it over
SFTP, and keeps the names of directory entries.  The environment
parameters are the remote home directory lookup and the directory
listing. -/

/-- The remote Steam base directory (`GetRemoteBaseDir`):
`path.Join(homeDir, ".steam", "steam")`. -/
def getRemoteBaseDir (homeDirRes : Except RErr String) : Except RErr String :=
  match homeDirRes with
  | .error e => .error e
  | .ok h => .ok (pathJoin (pathJoin h ".steam") "steam")

/-- The remote userdata directory (`GetRemoteUserDir`):
`path.Join(baseDir, "userdata")`. -/
def getRemoteUserDir (homeDirRes : Except RErr String) : Except RErr String :=
  match getRemoteBaseDir homeDirRes with
  | .error e => .error e
  | .ok b => .ok (pathJoin b "userdata")

/-- The collection loop of `GetRemoteUsers` (src/unnamed/part_001 lines
54-60): entries that are not directories are skipped with `continue`,
directory names are appended in listing order. -/
def collectDirNames : List RFileInfo → List String
  | [] => []
  | f :: rest =>
    if f.isDir then f.name :: collectDirNames rest else collectDirNames rest

/-- The `GetRemoteUsers` function (src/unnamed/part_001 lines 43-63).
`readDir p` is the outcome of `RemoteClient.ReadDir(p)`. -/
def getRemoteUsers (homeDirRes : Except RErr String)
    (readDir : String → Except RErr (List RFileInfo)) :
    Except RErr (List String) :=
  match getRemoteUserDir homeDirRes with
  | .error e => .error e
  | .ok userDir =>
    match readDir userDir with
    | .error e => .error e
    | .ok files => .ok (collectDirNames files)

/-! ## Shortcut removal and re-keying (src/unnamed/part_002, removeCmd)

The remove command iterates the loaded `shortcuts.Shortcuts` map (in
some iteration order, embedded as a list of records), keeps every
record whose `AppName` differs from the requested name, and builds the
new collection keyed by `fmt.Sprintf("%v", key)` over the slice index
0, 1, 2, ….  Records are embedded with their name plus an opaque
payload for the remaining fields, which the command never touches. -/

/-- One shortcut record as the remove command sees it: the `AppName`
field it filters on, and the rest of the record untouched. -/
structure GoShortcut (α : Type) where
  appName : String
  payload : α
deriving DecidableEq, Repr

/-- The filter loop of `removeCmd` (src/unnamed/part_002 lines 52-58):
records whose name equals the target are skipped with `continue`. -/
def removeFilter {α : Type} (name : String) :
    List (GoShortcut α) → List (GoShortcut α)
  | [] => []
  | sc :: rest =>
    if sc.appName = name then removeFilter name rest
    else sc :: removeFilter name rest

/-- The re-keying loop of `removeCmd` (src/unnamed/part_002 lines
60-66): slice index `i` becomes the string key `"i"`. -/
def rekeyFrom {α : Type} (i : Nat) : List (GoShortcut α) →
    List (String × GoShortcut α)
  | [] => []
  | sc :: rest => (toString i, sc) :: rekeyFrom (i + 1) rest

/-- The collection built and saved by `removeCmd` for one user
(src/unnamed/part_002 lines 51-69). -/
def removeCmdRewrite {α : Type} (name : String)
    (records : List (GoShortcut α)) : List (String × GoShortcut α) :=
  rekeyFrom 0 (removeFilter name records)

/-! ## Artwork application (src/pkg/steam/artwork.go)

`SetArtwork` probes the CEF capability once, resolves the grid path,
then applies each configured slot independently: CEF injection when
available, filesystem upload as fallback, every per-slot failure only
logged.  The external world per slot (CEF call outcome, upload
outcome) is an environment parameter, as are the user and directory
lookups consumed by `getGridPath`. -/

/-- Errors surfaced by the artwork layer. -/
inductive AErr where
  | noUsersFound
  | userDirError
deriving DecidableEq, Repr

/-- The artwork configuration (src/pkg/steam/artwork.go lines 26-32):
five optional image URLs, empty string meaning unset. -/
structure ArtworkConfig where
  gridPortrait : String
  gridLandscape : String
  heroImage : String
  logoImage : String
  iconImage : String
deriving DecidableEq, Repr

/-- The `getGridPath` helper (src/pkg/steam/artwork.go lines 232-252).
In remote mode the user-dir error is discarded (`userDir, _ := ...`,
yielding the zero value `""` on failure); in local mode it is
returned.  An error from the user listing and an empty listing both
become the NoUsersFound error. -/
def getGridPath (isRemote : Bool)
    (remoteUsers : Except AErr (List String))
    (remoteUserDir : Except AErr String)
    (localUsers : Except AErr (List String))
    (localUserDir : Except AErr String) : Except AErr String :=
  if isRemote then
    match remoteUsers with
    | .error _ => .error .noUsersFound
    | .ok [] => .error .noUsersFound
    | .ok (u :: _) =>
      let userDir := match remoteUserDir with | .ok d => d | .error _ => ""
      .ok (pathJoin (pathJoin (pathJoin userDir u) "config") "grid")
  else
    match localUsers with
    | .error _ => .error .noUsersFound
    | .ok [] => .error .noUsersFound
    | .ok (u :: _) =>
      match localUserDir with
      | .error e => .error e
      | .ok d => .ok (pathJoin (pathJoin (pathJoin d u) "config") "grid")

/-- External outcomes for one artwork slot: whether the CEF injection
call would succeed, and whether the filesystem upload would succeed. -/
structure SlotEnv where
  cefOk : Bool
  uploadOk : Bool
deriving DecidableEq, Repr

/-- What `SetArtwork` did for one slot. -/
inductive SlotAction where
  | skipped
  | cefApplied
  | uploaded
  | uploadFailed
deriving DecidableEq, Repr

/-- The `applyOne` closure inside `SetArtwork` (src/pkg/steam/artwork.go
lines 53-74): empty URL means skip; CEF first when available, its
failure logged; filesystem fallback, its failure logged — nothing is
returned to the caller. -/
def applyOne (canUseSteamAPI : Bool) (url : String) (e : SlotEnv) :
    SlotAction :=
  if url = "" then .skipped
  else if canUseSteamAPI ∧ e.cefOk then .cefApplied
  else if e.uploadOk then .uploaded
  else .uploadFailed

/-- The `SetArtwork` function (src/pkg/steam/artwork.go lines 38-96).
A nil configuration returns immediately with no error; a grid-path
failure is the only error return; otherwise the four CEF-capable slots
and the filesystem-only icon slot are processed in order, and the call
returns the per-slot actions with no error regardless of them.
`env i` is the external outcome for slot `i` in processing order
(portrait, landscape, hero, logo, icon). -/
def setArtwork (artwork : Option ArtworkConfig) (canUseSteamAPI : Bool)
    (gridPathRes : Except AErr String) (env : Nat → SlotEnv) :
    Except AErr (List SlotAction) :=
  match artwork with
  | none => .ok []
  | some a =>
    match gridPathRes with
    | .error e => .error e
    | .ok _ =>
      .ok [applyOne canUseSteamAPI a.gridPortrait (env 0),
           applyOne canUseSteamAPI a.gridLandscape (env 1),
           applyOne canUseSteamAPI a.heroImage (env 2),
           applyOne canUseSteamAPI a.logoImage (env 3),
           if a.iconImage = "" then .skipped
           else if (env 4).uploadOk then .uploaded
           else .uploadFailed]

/-! ## Extension inference (src/pkg/steam/artwork.go lines 320-353)

`getExtensionFromResponse` first matches the Content-Type header
against known image type substrings, then falls back to the URL suffix
(query string stripped, lowercased), then to `".png"`.  Strings are
embedded at the character-list level so that Go `strings.Contains`,
`strings.Index`, `strings.ToLower` and `strings.HasSuffix` map to list
operations. -/

/-- Go `strings.Contains(s, sub)`. -/
def goContains (s sub : String) : Bool := decide (sub.toList <:+: s.toList)

/-- The query-string strip (src/pkg/steam/artwork.go lines 335-338):
`strings.Index(url, "?")` and the slice up to it keep exactly the
characters before the first `?`. -/
def stripQuery (url : String) : List Char := url.toList.takeWhile (· ≠ '?')

/-- Go `strings.ToLower` on the stripped URL. -/
def goToLower (l : List Char) : List Char := l.map Char.toLower

/-- Go `strings.HasSuffix(l, sfx)`. -/
def goHasSuffix (l : List Char) (sfx : String) : Bool := decide (sfx.toList <:+ l)

/-- The Content-Type switch of `getExtensionFromResponse`
(src/pkg/steam/artwork.go lines 321-332): `none` means no case matched
and control falls through to the URL rules. -/
def contentTypeExt (contentType : String) : Option String :=
  if goContains contentType "png" then some ".png"
  else if goContains contentType "jpeg" ∨ goContains contentType "jpg" then some ".jpg"
  else if goContains contentType "webp" then some ".webp"
  else if goContains contentType "gif" then some ".gif"
  else none

/-- The URL-suffix switch of `getExtensionFromResponse`
(src/pkg/steam/artwork.go lines 334-352), including the default
`".png"`. -/
def urlSuffixExt (url : String) : String :=
  let urlLower := goToLower (stripQuery url)
  if goHasSuffix urlLower ".webp" then ".webp"
  else if goHasSuffix urlLower ".png" then ".png"
  else if goHasSuffix urlLower ".jpg" ∨ goHasSuffix urlLower ".jpeg" then ".jpg"
  else if goHasSuffix urlLower ".gif" then ".gif"
  else ".png"

/-- The whole `getExtensionFromResponse` function: Content-Type first,
URL suffix as fallback. -/
def getExtensionFromResponse (contentType url : String) : String :=
  match contentTypeExt contentType with
  | some ext => ext
  | none => urlSuffixExt url

/-! ## Artwork config fetch (src/pkg/steamgriddb/artwork.go lines 11-45)

`FetchArtworkConfig` performs five independent fetches against the
image database (grids filtered vertical, grids filtered horizontal,
heroes, logos, icons); each slot takes the first result URL when its
fetch returned without error and with a non-empty result list, and
stays the empty string otherwise.  The fetch outcomes are environment
parameters. -/

/-- One result entry of the image-database API: a numeric id and an
image URL. -/
structure SgdbEntry where
  id : Nat
  url : String
deriving DecidableEq, Repr

/-- An error from an image-database fetch. -/
inductive SgdbErr where
  | apiError (message : String)
deriving DecidableEq, Repr

/-- One slot assignment of `FetchArtworkConfig`: under
`err == nil && len(Data) > 0` the first result URL, else the field
keeps the zero value `""`. -/
def firstURL (r : Except SgdbErr (List SgdbEntry)) : String :=
  match r with
  | .ok (e :: _) => e.url
  | .ok [] => ""
  | .error _ => ""

/-- The `FetchArtworkConfig` function (src/pkg/steamgriddb/artwork.go
lines 11-45): assembles the five slots and returns the config with a
nil error unconditionally. -/
def fetchArtworkConfig (rp rl rh rlo ri : Except SgdbErr (List SgdbEntry)) :
    Except SgdbErr ArtworkConfig :=
  .ok { gridPortrait := firstURL rp
        gridLandscape := firstURL rl
        heroImage := firstURL rh
        logoImage := firstURL rlo
        iconImage := firstURL ri }

/-! ## Theorems -/

/-- Every dropped type encodes to `none` in the value switch. -/
theorem ensureVDFValue_eq_none_of_dropped (v : GoValue)
    (h : isDroppedType v = true) : ensureVDFValue v = none := by
  cases v <;> simp_all [isDroppedType, ensureVDFValue]

/-- The encode step introduces no key that was not in the pivot map. -/
theorem ensureVDFMap_keys_subset (m : List (String × GoValue)) (k : String)
    (h : k ∈ (ensureVDFMap m).map Prod.fst) : k ∈ m.map Prod.fst := by
  induction m with
  | nil => simp [ensureVDFMap] at h
  | cons kv rest ih =>
    obtain ⟨k', v'⟩ := kv
    cases hv : ensureVDFValue v' with
    | none =>
      simp only [ensureVDFMap, hv] at h
      exact List.mem_cons_of_mem _ (ih h)
    | some w =>
      simp only [ensureVDFMap, hv, List.map_cons, List.mem_cons] at h
      rcases h with h | h
      · simp [h]
      · exact List.mem_cons_of_mem _ (ih h)

/-- Dropped entries do not disturb the encoding of the others. -/
theorem ensureVDFMap_filter_dropped (m : List (String × GoValue)) :
    ensureVDFMap m =
      ensureVDFMap (m.filter (fun kv => !isDroppedType kv.2)) := by
  induction m with
  | nil => rfl
  | cons kv rest ih =>
    obtain ⟨k', v'⟩ := kv
    by_cases hd : isDroppedType v' = true
    · rw [show ensureVDFMap ((k', v') :: rest) = ensureVDFMap rest by
        simp [ensureVDFMap, ensureVDFValue_eq_none_of_dropped v' hd]]
      simp [List.filter, hd, ih]
    · simp only [Bool.not_eq_true] at hd
      simp only [ensureVDFMap, List.filter, hd, Bool.not_false, ih]

/-- C1: a null-valued key, and a key whose value has a type outside
int-like, float64, string and nested mapping (a slice or a boolean),
is omitted entirely from the VDF map produced by the encode step, and
the encoding still succeeds: `ensureVDFMap` is total, and its result
is the same as if the dropped entries had never been present.  The
pivot map carries the Go-map guarantee of distinct keys. -/
theorem C1_ensureVDFMap_drop_policy (m : List (String × GoValue))
    (k : String) (v : GoValue) (hnodup : (m.map Prod.fst).Nodup)
    (hmem : (k, v) ∈ m) (hdrop : isDroppedType v = true) :
    k ∉ (ensureVDFMap m).map Prod.fst ∧
    ensureVDFMap m =
      ensureVDFMap (m.filter (fun kv => !isDroppedType kv.2)) := by
  refine ⟨?_, ensureVDFMap_filter_dropped m⟩
  induction m with
  | nil => simp at hmem
  | cons kv rest ih =>
    obtain ⟨k', v'⟩ := kv
    simp only [List.map_cons, List.nodup_cons] at hnodup
    rcases List.mem_cons.mp hmem with heq | hrest
    · obtain ⟨hk, hv⟩ := Prod.mk.injEq .. ▸ heq
      subst hk hv
      rw [show ensureVDFMap ((k, v) :: rest) = ensureVDFMap rest by
        simp [ensureVDFMap, ensureVDFValue_eq_none_of_dropped v hdrop]]
      intro hc
      exact hnodup.1 (ensureVDFMap_keys_subset rest k hc)
    · have hkrest : k ∈ rest.map Prod.fst :=
        List.mem_map.mpr ⟨(k, v), hrest, rfl⟩
      have hne : k ≠ k' := fun h => hnodup.1 (h ▸ hkrest)
      cases hv' : ensureVDFValue v' with
      | none =>
        rw [show ensureVDFMap ((k', v') :: rest) = ensureVDFMap rest by
          simp [ensureVDFMap, hv']]
        exact ih hnodup.2 hrest
      | some w =>
        rw [show ensureVDFMap ((k', v') :: rest) =
            (k', w) :: ensureVDFMap rest by simp [ensureVDFMap, hv']]
        simp only [List.map_cons, List.mem_cons]
        rintro (h | h)
        · exact hne h
        · exact ih hnodup.2 hrest h

/-- Witness for C1 at a concrete pivot map holding a null, a string,
a slice and a boolean value. -/
theorem C1_witness :
    ((([("a", GoValue.vnull), ("b", GoValue.vstring "x"),
        ("c", GoValue.vlist []), ("d", GoValue.vbool true)].map
          Prod.fst).Nodup) ∧
     isDroppedType GoValue.vnull = true) ∧
    "a" ∉ (ensureVDFMap [("a", GoValue.vnull), ("b", GoValue.vstring "x"),
        ("c", GoValue.vlist []), ("d", GoValue.vbool true)]).map Prod.fst := by
  refine ⟨⟨by decide, rfl⟩, ?_⟩
  exact (C1_ensureVDFMap_drop_policy _ "a" GoValue.vnull (by decide)
    (List.mem_cons_self _ _) rfl).1

/-- C2: for every logical value representable as an unsigned 32-bit
integer, a pivot value of Go type int, of type int64, and of type
float64 with that whole value all encode to the same uint32 VDF value,
and the value switch returns a defined result on each of them. -/
theorem C2_numeric_coercion (v : Nat) (h : v < 2 ^ 32) :
    ensureVDFValue (.vint (v : Int)) = some (.vuint32 v) ∧
    ensureVDFValue (.vint64 (v : Int)) = some (.vuint32 v) ∧
    ensureVDFValue (.vfloat64 (v : ℚ)) = some (.vuint32 v) := by
  have hint : goIntToUint32 (v : Int) = v := by
    unfold goIntToUint32
    rw [Int.emod_eq_of_lt (by positivity) (by exact_mod_cast h)]
    exact Int.toNat_natCast v
  have hfloat : goFloat64ToUint32 (v : ℚ) = v := by
    unfold goFloat64ToUint32
    rw [Int.floor_natCast, Int.toNat_natCast]
    exact Nat.mod_eq_of_lt h
  refine ⟨?_, ?_, ?_⟩ <;> simp [ensureVDFValue, hint, hfloat]

/-- Witness for C2 at the value 7. -/
theorem C2_witness :
    7 < 2 ^ 32 ∧
    (ensureVDFValue (.vint (7 : Int)) = some (.vuint32 7) ∧
     ensureVDFValue (.vint64 (7 : Int)) = some (.vuint32 7) ∧
     ensureVDFValue (.vfloat64 (7 : ℚ)) = some (.vuint32 7)) := by
  refine ⟨by norm_num, ?_⟩
  have h := C2_numeric_coercion 7 (by norm_num)
  exact_mod_cast h

/-- C3 counterexample: in a run of `Connect` where the dial succeeds
and the SFTP sub-session fails (password config, no parseable key, so
an auth method exists), `Connect` does return the SFTP error — but
`RunCommand` afterwards does not report NotConnected: its
connectedness check looks at the transport handle field, which
`Connect` left assigned after closing the transport.  It fails with a
session error instead (or would even run on a live transport). -/
theorem C3_counterexample :
    (connect ⟨"host", 22, "user", "pw", ""⟩ (fun _ => false) "/root"
        true false newRClient).error = some RErr.sftpFailed ∧
    (connect ⟨"host", 22, "user", "pw", ""⟩ (fun _ => false) "/root"
        true false newRClient).client.sshSet = true ∧
    runCommand (connect ⟨"host", 22, "user", "pw", ""⟩ (fun _ => false)
        "/root" true false newRClient).client false "" =
      .error RErr.sessionFailed ∧
    RErr.sessionFailed ≠ RErr.notConnected := ⟨rfl, rfl, rfl, by decide⟩

/-- C3 as amended: when the dial succeeds and the SFTP sub-session
fails, `Connect` returns an error, the transport connection is closed,
and every SFTP-gated operation (ReadFile, Stat, and with them
WriteFile, ReadDir, GetHomeDir, which use the same nil check) reports
NotConnected — but `RunCommand` does not report NotConnected, because
the transport handle field remains assigned. -/
theorem C3_partial_state_after_sftp_failure (cfg : RemoteConfig)
    (keyOk : String → Bool) (homeDir : String)
    (hauth : (buildAuthMethods cfg keyOk homeDir).isEmpty = false) :
    (connect cfg keyOk homeDir true false newRClient).error =
        some RErr.sftpFailed ∧
    (connect cfg keyOk homeDir true false newRClient).client.sshOpen
        = false ∧
    (connect cfg keyOk homeDir true false newRClient).client.sftpSet
        = false ∧
    (connect cfg keyOk homeDir true false newRClient).client.sshSet
        = true ∧
    (∀ readRes p,
      readFile (connect cfg keyOk homeDir true false newRClient).client
        readRes p = .error RErr.notConnected) ∧
    (∀ statRes p,
      rstat (connect cfg keyOk homeDir true false newRClient).client
        statRes p = .error RErr.notConnected) ∧
    (∀ sessionOk output,
      runCommand (connect cfg keyOk homeDir true false newRClient).client
        sessionOk output ≠ .error RErr.notConnected) := by
  have hc : connect cfg keyOk homeDir true false newRClient =
      ⟨⟨true, false, false⟩, some RErr.sftpFailed, true⟩ := by
    simp [connect, hauth, newRClient]
  refine ⟨by rw [hc], by rw [hc], by rw [hc], by rw [hc], ?_, ?_, ?_⟩
  · intro readRes p
    rw [hc]
    simp [readFile]
  · intro statRes p
    rw [hc]
    simp [rstat]
  · intro sessionOk output
    rw [hc]
    cases sessionOk <;> simp [runCommand]

/-- Witness for the amended C3 at a concrete configuration. -/
theorem C3_witness :
    ((buildAuthMethods ⟨"host", 22, "user", "pw", ""⟩ (fun _ => false)
        "/root").isEmpty = false) ∧
    (∀ sessionOk output,
      runCommand (connect ⟨"host", 22, "user", "pw", ""⟩ (fun _ => false)
          "/root" true false newRClient).client
        sessionOk output ≠ .error RErr.notConnected) :=
  ⟨by decide,
   (C3_partial_state_after_sftp_failure ⟨"host", 22, "user", "pw", ""⟩
      (fun _ => false) "/root" (by decide)).2.2.2.2.2.2⟩

/-- C4: the auth-method list is built in the order explicit key file
(when configured and parseable), otherwise first parseable default
key, then password (when configured); a config with an unreadable or
unparseable key file and a non-empty password proceeds to dial with
password auth among the candidates; and when no method can be
constructed, `Connect` fails with the AuthenticationUnavailable error
without attempting to dial. -/
theorem C4_auth_method_construction (cfg : RemoteConfig)
    (keyOk : String → Bool) (homeDir : String) :
    (cfg.keyFile ≠ "" → keyOk cfg.keyFile = true →
      buildAuthMethods cfg keyOk homeDir =
        .publicKeys cfg.keyFile ::
          (if cfg.password ≠ "" then [.passwordAuth cfg.password] else [])) ∧
    ((cfg.keyFile = "" ∨ keyOk cfg.keyFile = false) →
      buildAuthMethods cfg keyOk homeDir =
        (match (defaultKeyPaths homeDir).find? keyOk with
         | some p => [.publicKeys p]
         | none => []) ++
          (if cfg.password ≠ "" then [.passwordAuth cfg.password] else [])) ∧
    (keyOk cfg.keyFile = false → cfg.password ≠ "" →
      AuthMethod.passwordAuth cfg.password ∈
          buildAuthMethods cfg keyOk homeDir ∧
      ∀ dialOk sftpOk c,
        (connect cfg keyOk homeDir dialOk sftpOk c).dialAttempted = true ∧
        (connect cfg keyOk homeDir dialOk sftpOk c).error ≠
          some RErr.authUnavailable) ∧
    ((cfg.keyFile = "" ∨ keyOk cfg.keyFile = false) →
      (∀ p ∈ defaultKeyPaths homeDir, keyOk p = false) →
      cfg.password = "" →
      ∀ dialOk sftpOk c,
        connect cfg keyOk homeDir dialOk sftpOk c =
          ⟨c, some RErr.authUnavailable, false⟩) := by
  have hpw : ∀ (l : List AuthMethod), cfg.password ≠ "" →
      AuthMethod.passwordAuth cfg.password ∈
        (l ++ if cfg.password ≠ "" then [.passwordAuth cfg.password] else []) := by
    intro l hp
    simp [hp]
  refine ⟨?_, ?_, ?_, ?_⟩
  · intro h1 h2
    simp [buildAuthMethods, h1, h2]
  · intro h
    rcases h with h | h <;> simp [buildAuthMethods, h]
  · intro hk hp
    have hexp : ¬(cfg.keyFile ≠ "" ∧ keyOk cfg.keyFile = true) := by
      rintro ⟨-, h2⟩
      rw [hk] at h2
      cases h2
    have hmem : AuthMethod.passwordAuth cfg.password ∈
        buildAuthMethods cfg keyOk homeDir := by
      unfold buildAuthMethods
      simp only [hexp, if_false, if_neg hexp, List.isEmpty_nil]
      cases hfind : (defaultKeyPaths homeDir).find? keyOk <;>
        simp [hp]
    refine ⟨hmem, ?_⟩
    intro dialOk sftpOk c
    have hne : (buildAuthMethods cfg keyOk homeDir).isEmpty = false := by
      cases hbuild : buildAuthMethods cfg keyOk homeDir with
      | nil => rw [hbuild] at hmem; cases hmem
      | cons a l => rfl
    cases dialOk <;> cases sftpOk <;>
      simp [connect, hne]
  · intro hk hdef hp dialOk sftpOk c
    have hempty : buildAuthMethods cfg keyOk homeDir = [] := by
      have hfind : (defaultKeyPaths homeDir).find? keyOk = none := by
        rw [List.find?_eq_none]
        intro p hpmem
        simp [hdef p hpmem]
      rcases hk with h | h <;> simp [buildAuthMethods, h, hfind, hp]
    simp [connect, hempty]

/-- Witness for C4: a config with an unparseable key file and no
password yields AuthenticationUnavailable with no dial; the same
config with a password proceeds to dial. -/
theorem C4_witness :
    (connect ⟨"host", 22, "user", "", "/bad/key"⟩ (fun _ => false)
        "/home/u" true true newRClient =
      ⟨newRClient, some RErr.authUnavailable, false⟩) ∧
    (AuthMethod.passwordAuth "pw" ∈
      buildAuthMethods ⟨"host", 22, "user", "pw", "/bad/key"⟩
        (fun _ => false) "/home/u") :=
  ⟨(C4_auth_method_construction ⟨"host", 22, "user", "", "/bad/key"⟩
      (fun _ => false) "/home/u").2.2.2 (Or.inr rfl)
      (fun _ _ => rfl) rfl true true newRClient,
   ((C4_auth_method_construction ⟨"host", 22, "user", "pw", "/bad/key"⟩
      (fun _ => false) "/home/u").2.2.1 rfl (by decide)).1⟩

/-- C5: `FileExists` is a total boolean — it returns true exactly when
the stat path succeeds (client connected and the underlying stat
returning a result), and every stat failure, including the
not-connected state, maps to false. -/
theorem C5_fileExists_total (c : RClient)
    (statRes : String → Option RFileInfo) (p : String) :
    (fileExists c statRes p = true ↔
      c.sftpSet = true ∧ (statRes p).isSome = true) ∧
    (∀ e, rstat c statRes p = .error e → fileExists c statRes p = false) ∧
    (c.sftpSet = false → fileExists c statRes p = false) := by
  cases hset : c.sftpSet <;> cases hstat : statRes p <;>
    simp [fileExists, rstat, hset, hstat]

/-- Witness for C5: a disconnected client and a failing stat both map
to false, a connected client with a succeeding stat to true. -/
theorem C5_witness :
    fileExists newRClient (fun _ => some ⟨"f", false⟩) "/x" = false ∧
    fileExists ⟨true, true, true⟩ (fun _ => none) "/x" = false ∧
    fileExists ⟨true, true, true⟩ (fun _ => some ⟨"f", false⟩) "/x" = true :=
  ⟨(C5_fileExists_total newRClient (fun _ => some ⟨"f", false⟩) "/x").2.2 rfl,
   (C5_fileExists_total ⟨true, true, true⟩ (fun _ => none) "/x").2.1
     RErr.statFailed (by simp [rstat]),
   ((C5_fileExists_total ⟨true, true, true⟩ (fun _ => some ⟨"f", false⟩)
     "/x").1).mpr ⟨rfl, rfl⟩⟩

/-- The filter loop of the remove command equals a list filter on the
name being different. -/
theorem removeFilter_eq_filter {α : Type} (name : String)
    (l : List (GoShortcut α)) :
    removeFilter name l = l.filter (fun sc => sc.appName ≠ name) := by
  induction l with
  | nil => rfl
  | cons sc rest ih =>
    by_cases h : sc.appName = name <;>
      simp [removeFilter, List.filter, h, ih]

/-- Re-keying preserves the records in order. -/
theorem rekeyFrom_map_snd {α : Type} (i : Nat) (l : List (GoShortcut α)) :
    (rekeyFrom i l).map Prod.snd = l := by
  induction l generalizing i with
  | nil => rfl
  | cons sc rest ih => simp [rekeyFrom, ih]

/-- The keys produced by re-keying from `i` are `i, i+1, …` rendered
in decimal. -/
theorem rekeyFrom_map_fst {α : Type} (i : Nat) (l : List (GoShortcut α)) :
    (rekeyFrom i l).map Prod.fst = (List.range' i l.length).map toString := by
  induction l generalizing i with
  | nil => rfl
  | cons sc rest ih =>
    simp [rekeyFrom, List.range'_succ, ih]

/-- Re-keying preserves the record count. -/
theorem rekeyFrom_length {α : Type} (i : Nat) (l : List (GoShortcut α)) :
    (rekeyFrom i l).length = l.length := by
  induction l generalizing i with
  | nil => rfl
  | cons sc rest ih => simp [rekeyFrom, ih]

/-- Filtering records whose name differs keeps the length minus the
count of the matching records. -/
theorem filter_ne_length {α : Type} (name : String)
    (l : List (GoShortcut α)) :
    (l.filter (fun sc => sc.appName ≠ name)).length =
      l.length - l.countP (fun sc => sc.appName = name) ∧
    l.countP (fun sc => sc.appName = name) ≤ l.length := by
  induction l with
  | nil => simp
  | cons sc rest ih =>
    obtain ⟨ih1, ih2⟩ := ih
    by_cases h : sc.appName = name <;>
      simp [List.filter, List.countP_cons, h] at ih1 ih2 ⊢ <;> omega

/-- C6 counterexample: a collection of two records both named "a" has
zero records left after removing "a", not one — the command removes
every record bearing the name, so the claimed N-1 count fails when the
name is not unique. -/
theorem C6_counterexample :
    removeCmdRewrite "a" [⟨"a", 0⟩, ⟨"a", 1⟩] =
      ([] : List (String × GoShortcut Nat)) ∧
    (removeCmdRewrite "a" [(⟨"a", 0⟩ : GoShortcut Nat), ⟨"a", 1⟩]).length ≠
      2 - 1 := ⟨rfl, by decide⟩

/-- C6 as amended: removing by name drops every record whose name
equals the target, so a collection of N records iterated in any order
yields N - k records where k counts the matching records (N - 1
exactly when one record matches); the surviving records are re-keyed
densely as "0" … and each appears unchanged, in iteration order. -/
theorem C6_remove_rekey {α : Type} (name : String)
    (records : List (GoShortcut α)) :
    (removeCmdRewrite name records).length =
      records.length - records.countP (fun sc => sc.appName = name) ∧
    (removeCmdRewrite name records).map Prod.fst =
      (List.range (removeCmdRewrite name records).length).map toString ∧
    (removeCmdRewrite name records).map Prod.snd =
      records.filter (fun sc => sc.appName ≠ name) ∧
    (∀ sc ∈ records, sc.appName ≠ name →
      sc ∈ (removeCmdRewrite name records).map Prod.snd) ∧
    (records.countP (fun sc => sc.appName = name) = 1 →
      (removeCmdRewrite name records).length = records.length - 1) := by
  have hfilter : removeCmdRewrite name records =
      rekeyFrom 0 (records.filter (fun sc => sc.appName ≠ name)) := by
    rw [removeCmdRewrite, removeFilter_eq_filter]
  have hlen : (removeCmdRewrite name records).length =
      (records.filter (fun sc => sc.appName ≠ name)).length := by
    rw [hfilter, rekeyFrom_length]
  have hcount : (records.filter (fun sc => sc.appName ≠ name)).length =
      records.length - records.countP (fun sc => sc.appName = name) :=
    (filter_ne_length name records).1
  refine ⟨hlen.trans hcount, ?_, ?_, ?_, ?_⟩
  · rw [hfilter, rekeyFrom_map_fst, rekeyFrom_length, List.range_eq_range']
  · rw [hfilter, rekeyFrom_map_snd]
  · intro sc hmem hne
    rw [hfilter, rekeyFrom_map_snd]
    exact List.mem_filter.mpr ⟨hmem, by simp [hne]⟩
  · intro h1
    rw [hlen.trans hcount, h1]

/-- Witness for the amended C6: a collection with exactly one record
named "a" does shrink by one, and a collection with two such records
shrinks by two; the surviving record keeps its content under key "0". -/
theorem C6_witness :
    (removeCmdRewrite "a" [(⟨"a", 0⟩ : GoShortcut Nat), ⟨"b", 1⟩] =
      [("0", ⟨"b", 1⟩)]) ∧
    ([(⟨"a", 0⟩ : GoShortcut Nat), ⟨"b", 1⟩].countP
        (fun sc => sc.appName = "a") = 1 ∧
     (removeCmdRewrite "a" [(⟨"a", 0⟩ : GoShortcut Nat), ⟨"b", 1⟩]).length =
       2 - 1) ∧
    (removeCmdRewrite "a"
        [(⟨"a", 0⟩ : GoShortcut Nat), ⟨"b", 1⟩, ⟨"a", 2⟩]).length =
      3 - [(⟨"a", 0⟩ : GoShortcut Nat), ⟨"b", 1⟩, ⟨"a", 2⟩].countP
        (fun sc => sc.appName = "a") :=
  ⟨by decide,
   ⟨by decide,
    (C6_remove_rekey "a" [⟨"a", 0⟩, ⟨"b", 1⟩]).2.2.2.2 (by decide)⟩,
   (C6_remove_rekey "a" [⟨"a", 0⟩, ⟨"b", 1⟩, ⟨"a", 2⟩]).1⟩

/-- C7 counterexample: with an absent artwork configuration,
`SetArtwork` returns success immediately (the claim asserts it returns
an error in that case). -/
theorem C7_counterexample :
    setArtwork none false (.ok "/grid") (fun _ => ⟨false, false⟩) =
      .ok ([] : List SlotAction) := rfl

/-- C7 as amended: `SetArtwork` returns an error iff the configuration
is present and grid-path resolution fails (an absent configuration
returns success immediately without touching any slot); when the grid
path resolves, all five slots are processed and the call succeeds
regardless of per-slot CEF or upload failures, each slot's outcome
depending only on its own URL and its own external outcomes; and
`getGridPath` fails with NoUsersFound when the user listing errors or
is empty. -/
theorem C7_setArtwork_error_conditions (a : ArtworkConfig) (canAPI : Bool)
    (gp : Except AErr String) (env : Nat → SlotEnv) :
    (∀ e, setArtwork (some a) canAPI gp env = .error e ↔ gp = .error e) ∧
    setArtwork none canAPI gp env = .ok [] ∧
    (∀ g, gp = .ok g →
      setArtwork (some a) canAPI gp env =
        .ok [applyOne canAPI a.gridPortrait (env 0),
             applyOne canAPI a.gridLandscape (env 1),
             applyOne canAPI a.heroImage (env 2),
             applyOne canAPI a.logoImage (env 3),
             if a.iconImage = "" then .skipped
             else if (env 4).uploadOk then .uploaded
             else .uploadFailed]) ∧
    (∀ rud lu lud,
      getGridPath true (.ok []) rud lu lud = .error .noUsersFound) ∧
    (∀ err rud lu lud,
      getGridPath true (.error err) rud lu lud = .error .noUsersFound) ∧
    (∀ ru rud lud,
      getGridPath false ru rud (.ok []) lud = .error .noUsersFound) ∧
    (∀ ru rud lud err,
      getGridPath false ru rud (.error err) lud = .error .noUsersFound) := by
  refine ⟨?_, rfl, ?_, ?_, ?_, ?_, ?_⟩
  · intro e
    cases gp <;> simp [setArtwork]
  · intro g hg
    subst hg
    rfl
  · intro rud lu lud; rfl
  · intro err rud lu lud; rfl
  · intro ru rud lud; rfl
  · intro ru rud lud err; rfl

/-- Witness for the amended C7: a grid-path failure is surfaced, and
with a resolved grid path every slot is processed even though every
external call fails. -/
theorem C7_witness :
    setArtwork (some ⟨"u1", "u2", "u3", "u4", "u5"⟩) true
        (.error .noUsersFound) (fun _ => ⟨false, false⟩) =
      .error AErr.noUsersFound ∧
    setArtwork (some ⟨"u1", "u2", "u3", "u4", "u5"⟩) true (.ok "/grid")
        (fun _ => ⟨false, false⟩) =
      .ok [.uploadFailed, .uploadFailed, .uploadFailed, .uploadFailed,
           .uploadFailed] :=
  ⟨((C7_setArtwork_error_conditions ⟨"u1", "u2", "u3", "u4", "u5"⟩ true
      (.error .noUsersFound) (fun _ => ⟨false, false⟩)).1
        AErr.noUsersFound).mpr rfl,
   ((C7_setArtwork_error_conditions ⟨"u1", "u2", "u3", "u4", "u5"⟩ true
      (.ok "/grid") (fun _ => ⟨false, false⟩)).2.2.1 "/grid" rfl).trans rfl⟩

/-- Boolean suffix check unfolded. -/
theorem goHasSuffix_iff (l : List Char) (s : String) :
    goHasSuffix l s = true ↔ s.toList <:+ l := by
  simp [goHasSuffix]

/-- Two candidate suffixes of the same list are comparable, so a held
suffix refutes any incomparable one. -/
theorem goHasSuffix_conflict (l : List Char) (s1 s2 : String)
    (h1 : goHasSuffix l s1 = true)
    (h : ¬(s1.toList <:+ s2.toList ∨ s2.toList <:+ s1.toList)) :
    goHasSuffix l s2 = false := by
  cases hs : goHasSuffix l s2 with
  | false => rfl
  | true =>
    exact absurd
      (List.suffix_or_suffix_of_suffix ((goHasSuffix_iff l s1).mp h1)
        ((goHasSuffix_iff l s2).mp hs)) h

/-- A matched Content-Type case yields one of the known extensions. -/
theorem contentTypeExt_mem (ct : String) (e : String)
    (h : contentTypeExt ct = some e) :
    e ∈ [".png", ".jpg", ".webp", ".gif"] := by
  unfold contentTypeExt at h
  split_ifs at h <;> simp_all

/-- C8 counterexample: with no matching Content-Type and a URL ending
in the known image suffix ".jpeg", the function returns ".jpg", not
that suffix. -/
theorem C8_counterexample :
    contentTypeExt "" = none ∧
    goHasSuffix (goToLower (stripQuery "http://example.com/art.jpeg"))
      ".jpeg" = true ∧
    getExtensionFromResponse "" "http://example.com/art.jpeg" = ".jpg" ∧
    (".jpg" : String) ≠ ".jpeg" := ⟨by decide, by decide, by decide, by decide⟩

/-- C8 as amended: the extension is chosen with Content-Type priority
(a matched Content-Type case decides the result regardless of the
URL), then by the URL suffix after query-strip and lowercasing, where
each known suffix maps to its canonical extension — ".jpeg" to ".jpg",
every other known suffix to itself — then the default ".png"; the
function is total and always returns one of the four known
extensions. -/
theorem C8_extension_priority (ct url : String) :
    getExtensionFromResponse ct url ∈ [".png", ".jpg", ".webp", ".gif"] ∧
    (∀ e, contentTypeExt ct = some e → getExtensionFromResponse ct url = e) ∧
    (contentTypeExt ct = none →
      goHasSuffix (goToLower (stripQuery url)) ".webp" = true →
      getExtensionFromResponse ct url = ".webp") ∧
    (contentTypeExt ct = none →
      goHasSuffix (goToLower (stripQuery url)) ".png" = true →
      getExtensionFromResponse ct url = ".png") ∧
    (contentTypeExt ct = none →
      goHasSuffix (goToLower (stripQuery url)) ".jpg" = true →
      getExtensionFromResponse ct url = ".jpg") ∧
    (contentTypeExt ct = none →
      goHasSuffix (goToLower (stripQuery url)) ".jpeg" = true →
      getExtensionFromResponse ct url = ".jpg") ∧
    (contentTypeExt ct = none →
      goHasSuffix (goToLower (stripQuery url)) ".gif" = true →
      getExtensionFromResponse ct url = ".gif") ∧
    (contentTypeExt ct = none →
      goHasSuffix (goToLower (stripQuery url)) ".webp" = false →
      goHasSuffix (goToLower (stripQuery url)) ".png" = false →
      goHasSuffix (goToLower (stripQuery url)) ".jpg" = false →
      goHasSuffix (goToLower (stripQuery url)) ".jpeg" = false →
      goHasSuffix (goToLower (stripQuery url)) ".gif" = false →
      getExtensionFromResponse ct url = ".png") := by
  refine ⟨?_, ?_, ?_, ?_, ?_, ?_, ?_, ?_⟩
  · cases hct : contentTypeExt ct with
    | some e =>
      rw [show getExtensionFromResponse ct url = e from by
        simp [getExtensionFromResponse, hct]]
      exact contentTypeExt_mem ct e hct
    | none =>
      rw [show getExtensionFromResponse ct url = urlSuffixExt url from by
        simp [getExtensionFromResponse, hct]]
      simp only [urlSuffixExt]
      split_ifs <;> simp
  · intro e he
    simp [getExtensionFromResponse, he]
  · intro hct hs
    simp [getExtensionFromResponse, hct, urlSuffixExt, hs]
  · intro hct hs
    have hwebp := goHasSuffix_conflict _ ".png" ".webp" hs (by decide)
    simp [getExtensionFromResponse, hct, urlSuffixExt, hs, hwebp]
  · intro hct hs
    have hwebp := goHasSuffix_conflict _ ".jpg" ".webp" hs (by decide)
    have hpng := goHasSuffix_conflict _ ".jpg" ".png" hs (by decide)
    simp [getExtensionFromResponse, hct, urlSuffixExt, hs, hwebp, hpng]
  · intro hct hs
    have hwebp := goHasSuffix_conflict _ ".jpeg" ".webp" hs (by decide)
    have hpng := goHasSuffix_conflict _ ".jpeg" ".png" hs (by decide)
    simp [getExtensionFromResponse, hct, urlSuffixExt, hs, hwebp, hpng]
  · intro hct hs
    have hwebp := goHasSuffix_conflict _ ".gif" ".webp" hs (by decide)
    have hpng := goHasSuffix_conflict _ ".gif" ".png" hs (by decide)
    have hjpg := goHasSuffix_conflict _ ".gif" ".jpg" hs (by decide)
    have hjpeg := goHasSuffix_conflict _ ".gif" ".jpeg" hs (by decide)
    simp [getExtensionFromResponse, hct, urlSuffixExt, hs, hwebp, hpng,
      hjpg, hjpeg]
  · intro hct h1 h2 h3 h4 h5
    simp [getExtensionFromResponse, hct, urlSuffixExt, h1, h2, h3, h4, h5]

/-- Witness for the amended C8: a Content-Type wins over a conflicting
URL suffix; the ".jpeg" suffix canonicalizes to ".jpg"; an unknown
suffix defaults to ".png". -/
theorem C8_witness :
    (contentTypeExt "image/gif" = some ".gif" ∧
     getExtensionFromResponse "image/gif" "http://a/b.png" = ".gif") ∧
    (contentTypeExt "text/plain" = none ∧
     goHasSuffix (goToLower (stripQuery "http://a/B.JPEG?x=1")) ".jpeg" = true ∧
     getExtensionFromResponse "text/plain" "http://a/B.JPEG?x=1" = ".jpg") ∧
    getExtensionFromResponse "text/plain" "http://a/b.bmp" = ".png" :=
  ⟨⟨by decide,
    (C8_extension_priority "image/gif" "http://a/b.png").2.1 ".gif" (by decide)⟩,
   ⟨by decide, by decide,
    (C8_extension_priority "text/plain" "http://a/B.JPEG?x=1").2.2.2.2.2.1
      (by decide) (by decide)⟩,
   (C8_extension_priority "text/plain" "http://a/b.bmp").2.2.2.2.2.2.2
     (by decide) (by decide) (by decide) (by decide) (by decide) (by decide)⟩

/-- Directory-name collection equals filtering to directories and
projecting names, in listing order. -/
theorem collectDirNames_eq (files : List RFileInfo) :
    collectDirNames files =
      (files.filter (fun f => f.isDir)).map (fun f => f.name) := by
  induction files with
  | nil => rfl
  | cons f rest ih =>
    cases hf : f.isDir <;> simp [collectDirNames, List.filter, hf, ih]

/-- C9: when remote resolution succeeds, `GetRemoteUsers` returns
exactly the names of the directory entries of the userdata listing, in
listing order, with every non-directory entry filtered out. -/
theorem C9_getRemoteUsers (homeDir : String)
    (readDir : String → Except RErr (List RFileInfo))
    (files : List RFileInfo)
    (h : readDir (pathJoin (pathJoin (pathJoin homeDir ".steam") "steam")
      "userdata") = .ok files) :
    getRemoteUsers (.ok homeDir) readDir =
      .ok ((files.filter (fun f => f.isDir)).map (fun f => f.name)) := by
  simp [getRemoteUsers, getRemoteUserDir, getRemoteBaseDir, h,
    collectDirNames_eq]

/-- Witness for C9: a userdata listing with two subdirectories and one
regular file yields exactly the two subdirectory names. -/
theorem C9_witness :
    ((fun _ => Except.ok [(⟨"100", true⟩ : RFileInfo), ⟨"log.txt", false⟩,
        ⟨"200", true⟩]) (pathJoin (pathJoin (pathJoin "/home/u" ".steam")
          "steam") "userdata") =
      Except.ok (ε := RErr) [(⟨"100", true⟩ : RFileInfo), ⟨"log.txt", false⟩,
        ⟨"200", true⟩]) ∧
    getRemoteUsers (.ok "/home/u")
        (fun _ => .ok [⟨"100", true⟩, ⟨"log.txt", false⟩, ⟨"200", true⟩]) =
      .ok ["100", "200"] :=
  ⟨rfl,
   (C9_getRemoteUsers "/home/u"
      (fun _ => .ok [⟨"100", true⟩, ⟨"log.txt", false⟩, ⟨"200", true⟩])
      [⟨"100", true⟩, ⟨"log.txt", false⟩, ⟨"200", true⟩] rfl).trans
     (by simp)⟩

/-- C10: `FetchArtworkConfig` always returns a config with a nil
error, whatever the five fetch outcomes; each slot carries the first
result URL when its fetch succeeded with at least one result, and the
empty string when the fetch errored or returned no results. -/
theorem C10_fetchArtworkConfig_absorbs_failures
    (rp rl rh rlo ri : Except SgdbErr (List SgdbEntry)) :
    fetchArtworkConfig rp rl rh rlo ri =
      .ok ⟨firstURL rp, firstURL rl, firstURL rh, firstURL rlo,
           firstURL ri⟩ ∧
    (∀ e rest, firstURL (.ok (e :: rest)) = e.url) ∧
    firstURL (.ok ([] : List SgdbEntry)) = "" ∧
    (∀ err, firstURL (.error err) = "") :=
  ⟨rfl, fun _ _ => rfl, rfl, fun _ => rfl⟩

/-- Witness for C10 at one concrete mix of fetch outcomes. -/
theorem C10_witness :
    fetchArtworkConfig (.error (.apiError "boom")) (.ok [])
        (.ok [⟨1, "hero"⟩]) (.ok [⟨2, "logo"⟩, ⟨3, "alt"⟩]) (.ok []) =
      .ok ⟨"", "", "hero", "logo", ""⟩ :=
  ((C10_fetchArtworkConfig_absorbs_failures (.error (.apiError "boom"))
      (.ok []) (.ok [⟨1, "hero"⟩]) (.ok [⟨2, "logo"⟩, ⟨3, "alt"⟩])
      (.ok [])).1).trans rfl
